import Mathlib

-- Shallow embedding of the conversion engine of src/pages/index.js
-- (hasp-csv-formatter): CSV line parsing, header resolution, section
-- registry operations, title-pattern resolution with uniqueness
-- enforcement, record construction and the two exporters.
-- JavaScript strings are modelled as Lean String values; the wall clock
-- (Date.now and friends) is passed in explicitly as a parameter.

namespace HaspCSV

-- Character and string helpers mirroring the JavaScript primitives used
-- by the source (trim, toLowerCase, slice, startsWith, split, replace).

def isWs (c : Char) : Bool :=
  c = ' ' || c = '\t' || c = '\n' || c = '\r'

def trimChars (l : List Char) : List Char :=
  ((l.dropWhile isWs).reverse.dropWhile isWs).reverse

def trimStr (s : String) : String :=
  String.mk (trimChars s.toList)

def strLower (s : String) : String :=
  String.mk (s.toList.map Char.toLower)

def strDrop (s : String) (n : Nat) : String :=
  String.mk (s.toList.drop n)

def startsList : List Char → List Char → Bool
  | [], _ => true
  | _ :: _, [] => false
  | p :: ps, c :: cs => p == c && startsList ps cs

def strStarts (s p : String) : Bool :=
  startsList p.toList s.toList

def alookup {α : Type} : List (String × α) → String → Option α
  | [], _ => none
  | kv :: rest, k => if kv.1 = k then some kv.2 else alookup rest k

def assocSet {α : Type} (m : List (String × α)) (k : String) (v : α) : List (String × α) :=
  if (alookup m k).isSome then m.map (fun kv => if kv.1 = k then (k, v) else kv)
  else m ++ [(k, v)]

def optJoin {α : Type} : Option (Option α) → Option α
  | some x => x
  | none => none

def jsOr {α : Type} : Option α → Option α → Option α
  | some x, _ => some x
  | none, b => b

def joinSep (sep : String) : List String → String
  | [] => ""
  | x :: rest => rest.foldl (fun acc y => acc ++ sep ++ y) x

def replaceCore (pat rep : List Char) : Nat → List Char → List Char
  | _, [] => []
  | 0, s => s
  | fuel + 1, c :: rest =>
    if startsList pat (c :: rest) then rep ++ replaceCore pat rep fuel ((c :: rest).drop pat.length)
    else c :: replaceCore pat rep fuel rest

def replaceAllStr (s pat rep : String) : String :=
  String.mk (replaceCore pat.toList rep.toList s.toList.length s.toList)

def replaceWsRunsAux (repl : List Char) : List Char → Bool → List Char
  | [], _ => []
  | c :: rest, prevWs =>
    if isWs c then (if prevWs then [] else repl) ++ replaceWsRunsAux repl rest true
    else c :: replaceWsRunsAux repl rest false

def replaceWsRuns (repl : String) (s : String) : String :=
  String.mk (replaceWsRunsAux repl.toList s.toList false)

def normCRLF : List Char → List Char
  | [] => []
  | '\r' :: '\n' :: rest => '\n' :: normCRLF rest
  | c :: rest => c :: normCRLF rest

def splitOnNL : List Char → List (List Char)
  | [] => [[]]
  | '\n' :: rest => [] :: splitOnNL rest
  | c :: rest =>
    match splitOnNL rest with
    | [] => [[c]]
    | l :: ls => (c :: l) :: ls

-- text.replace(/\r\n/g, "\n").split("\n") filtered to lines with
-- non-whitespace content, as in processCSV.
def nonBlankLines (text : String) : List String :=
  ((splitOnNL (normCRLF text.toList)).map String.mk).filter
    (fun l => decide (0 < (trimStr l).length))

-- parseCSVLine: single left-to-right scan; a double quote immediately
-- followed by another double quote emits a literal quote (this check is
-- made before the quote-state check), a lone double quote toggles the
-- quote state, and a comma outside quotes ends the field.
def parseCSVLineAux : List Char → List Char → Bool → List (List Char)
  | [], cur, _ => [cur]
  | '"' :: '"' :: rest, cur, inQuotes => parseCSVLineAux rest (cur ++ ['"']) inQuotes
  | '"' :: rest, cur, inQuotes => parseCSVLineAux rest cur (!inQuotes)
  | c :: rest, cur, inQuotes =>
    if c = ',' ∧ inQuotes = false then cur :: parseCSVLineAux rest [] inQuotes
    else parseCSVLineAux rest (cur ++ [c]) inQuotes

def parseCSVLine (line : String) : List String :=
  (parseCSVLineAux line.toList [] false).map (fun cs => trimStr (String.mk cs))

-- Header resolution: blank parsed headers become column_<1-based index>,
-- then everything is lower-cased.
def numberHeaders : Nat → List String → List String
  | _, [] => []
  | i, h :: rest =>
    (if h = "" then "column_" ++ Nat.repr (i + 1) else h) :: numberHeaders (i + 1) rest

def headerNames (firstLine : String) : List String :=
  (numberHeaders 0 (parseCSVLine firstLine)).map strLower

-- Section registry.

structure Sect where
  id : String
  name : String
  removable : Bool
deriving DecidableEq

def initialSections : List Sect :=
  [{ id := "main", name := "main", removable := true }]

-- columnMap maps a lower-cased header to a section id. A value of none
-- models an entry whose value is the JavaScript undefined (which remove
-- can produce when no fallback section exists).
abbrev ColumnMap := List (String × Option String)

def addSection (name : String) (salt : String) (secs : List Sect) : List Sect :=
  if trimStr name = "" then secs
  else
    secs ++ [{ id := replaceWsRuns "_" (strLower (trimStr name)) ++ "_" ++ salt,
               name := trimStr name, removable := true }]

def renameSection (id newName : String) (secs : List Sect) : List Sect :=
  secs.map (fun s => if s.id = id then { s with name := newName } else s)

def removeSection (id : String) (secs : List Sect) (cmap : ColumnMap) :
    List Sect × ColumnMap :=
  let next := secs.filter (fun s => decide (s.id ≠ id))
  let fallbackId := (next.head?).map Sect.id
  (next, cmap.map (fun kv => if kv.2 = some id then (kv.1, fallbackId) else kv))

-- Title pattern resolution.

def resolveToken (token : String) (rowObject : List (String × String))
    (headersArray : List String) (rowIndex : Nat) (now : String) : String :=
  let t := trimStr token
  if t = "title" then (alookup rowObject "title").getD ""
  else if t = "index" then Nat.repr rowIndex
  else if t = "timestamp" then now
  else if strStarts (strLower t) "column:" then
    let headerName := trimStr (strDrop t 7)
    if headerName = "" then ""
    else
      match headersArray.find? (fun h => strLower h == strLower headerName) with
      | some found => (alookup rowObject found).getD ""
      | none => ""
  else if strStarts (strLower t) "column_" then
    let headerName := trimStr (strDrop t 7)
    if headerName = "" then ""
    else
      let normalizedQuery := replaceWsRuns "_" (strLower headerName)
      match headersArray.find? (fun h => replaceWsRuns "_" (strLower h) == normalizedQuery) with
      | some m => (alookup rowObject m).getD ""
      | none => ""
  else
    match headersArray.find? (fun h => strLower h == strLower t) with
    | some m => (alookup rowObject m).getD ""
    | none => ""

-- pat.match(/\{([^\}]+)\}/g): scan for brace-delimited tokens with a
-- non-empty body; the body may not contain a closing brace.
def findTokensScan : List Char → Option (List Char) → List String
  | [], _ => []
  | c :: rest, none =>
    if c = '{' then findTokensScan rest (some []) else findTokensScan rest none
  | c :: rest, some acc =>
    if c = '}' then
      match acc with
      | [] => findTokensScan rest none
      | _ :: _ => String.mk ('{' :: acc.reverse ++ ['}']) :: findTokensScan rest none
    else findTokensScan rest (some (c :: acc))

def findTokens (l : List Char) : List String :=
  findTokensScan l none

-- raw.slice(1, -1)
def tokenBody (raw : String) : String :=
  String.mk ((raw.toList.drop 1).dropLast)

def substTokens (rowObject : List (String × String)) (headersArray : List String)
    (rowIndex : Nat) (now : String) : List String → String → String
  | [], result => result
  | raw :: rest, result =>
    substTokens rowObject headersArray rowIndex now rest
      (replaceAllStr result raw (trimStr (resolveToken (tokenBody raw) rowObject headersArray rowIndex now)))

def buildTitleFromPattern (pattern : String) (rowObject : List (String × String))
    (headersArray : List String) (rowIndex : Nat) (now : String) : String :=
  if trimStr pattern = "" then (alookup rowObject "title").getD ""
  else
    match findTokens pattern.toList with
    | [] => pattern
    | raw :: rest => substTokens rowObject headersArray rowIndex now (raw :: rest) pattern

-- Record construction (processCSV body).

structure Record where
  title : String
  content : String
  data : List (String × List (String × String))
deriving DecidableEq

def rowObjectOf (headers : List String) (line : String) : List (String × String) :=
  let values := parseCSVLine line
  let padded := values.take headers.length ++ List.replicate (headers.length - values.length) ""
  (headers.zip padded).foldl (fun acc hv => assocSet acc hv.1 hv.2) []

def initSectionsData (sections : List Sect) : List (String × List (String × String)) :=
  sections.foldl (fun acc s => assocSet acc s.name []) []

def buildSectionsDataAux (sections : List Sect) (columnMap : ColumnMap)
    (defaultSectionId : String) (row : List (String × String)) :
    List String → List (String × List (String × String)) →
      Except String (List (String × List (String × String)))
  | [], acc => Except.ok acc
  | headerLower :: rest, acc =>
    if headerLower = "title" ∨ headerLower = "content" then
      buildSectionsDataAux sections columnMap defaultSectionId row rest acc
    else
      let targetSectionId := (optJoin (alookup columnMap headerLower)).getD defaultSectionId
      match jsOr (sections.find? (fun s => s.id == targetSectionId)) sections.head? with
      | none => Except.error "Error processing CSV file."
      | some ts =>
        buildSectionsDataAux sections columnMap defaultSectionId row rest
          (assocSet acc ts.name
            (assocSet ((alookup acc ts.name).getD []) headerLower ((alookup row headerLower).getD "")))

-- Title uniqueness enforcement via running per-string counts.
def dedupStep (titleCounts : List (String × Nat)) (normalized : String) :
    String × List (String × Nat) :=
  let cnt := (alookup titleCounts normalized).getD 0 + 1
  let finalTitle := if cnt > 1 then normalized ++ "-" ++ Nat.repr (cnt - 1) else normalized
  (finalTitle, assocSet titleCounts normalized cnt)

def processRows (headers : List String) (sections : List Sect) (columnMap : ColumnMap)
    (defaultSectionId titlePattern now : String) :
    Nat → List (String × Nat) → List String → Except String (List Record)
  | _, _, [] => Except.ok []
  | i, titleCounts, line :: rest =>
    let row := rowObjectOf headers line
    match buildSectionsDataAux sections columnMap defaultSectionId row headers (initSectionsData sections) with
    | Except.error e => Except.error e
    | Except.ok sectionsData =>
      let d := dedupStep titleCounts (buildTitleFromPattern titlePattern row headers i now)
      match processRows headers sections columnMap defaultSectionId titlePattern now (i + 1) d.2 rest with
      | Except.error e => Except.error e
      | Except.ok recs =>
        Except.ok ({ title := d.1, content := (alookup row "content").getD "", data := sectionsData } :: recs)

def processCSV (text : String) (sections : List Sect) (columnMap : ColumnMap)
    (titlePattern : String) (now : String) : Except String (List Record) :=
  match nonBlankLines text with
  | [] => Except.error "CSV file is empty or malformed."
  | firstLine :: restLines =>
    processRows (headerNames firstLine) sections columnMap
      (((sections.head?).map Sect.id).getD "section_default") titlePattern now 1 [] restLines

def titlesOf : Except String (List Record) → List String
  | Except.ok recs => recs.map Record.title
  | Except.error _ => []

def successMessage (n : Nat) : String :=
  "Converted " ++ Nat.repr n ++ " row" ++ (if n ≠ 1 then "s" else "") ++ "."

def convertStatusMessage (text : String) (sections : List Sect) (columnMap : ColumnMap)
    (titlePattern : String) (now : String) : String :=
  match processCSV text sections columnMap titlePattern now with
  | Except.ok recs => successMessage recs.length
  | Except.error e => e

-- The dedup pass in isolation, for reasoning about the title suffix rule.
def dedupTitles : List (String × Nat) → List String → List String
  | _, [] => []
  | counts, b :: rest =>
    (dedupStep counts b).1 :: dedupTitles (dedupStep counts b).2 rest

def baseTitlesFrom (headers : List String) (pat now : String) : Nat → List String → List String
  | _, [] => []
  | i, line :: rest =>
    buildTitleFromPattern pat (rowObjectOf headers line) headers i now ::
      baseTitlesFrom headers pat now (i + 1) rest

def convertBaseTitles (text : String) (pat now : String) : List String :=
  match nonBlankLines text with
  | [] => []
  | firstLine :: restLines => baseTitlesFrom (headerNames firstLine) pat now 1 restLines

-- The suffixing rule as the spec states it: the k-th occurrence of a base
-- title (k counted in source order) stays unmodified when k = 1 and
-- otherwise receives the suffix -(k-1).
def genRule (seen : List String) (bases : List String) (j : Nat) : String :=
  let b := bases.getD j ""
  let k := seen.count b + (bases.take (j + 1)).count b
  if k = 1 then b else b ++ "-" ++ Nat.repr (k - 1)

def dedupRule (bases : List String) (j : Nat) : String :=
  genRule [] bases j

-- Exporters.

def canExport (jsonData : List Record) (sections : List Sect) : Bool :=
  decide (jsonData.length > 0) && decide (sections.length > 0)

inductive JsonExportResult where
  | blocked (modalTitle modalBody statusMessage : String)
  | noData (statusMessage : String)
  | downloaded (payload : List Record) (statusMessage : String)
deriving DecidableEq

def downloadJSON (jsonData : List Record) (sections : List Sect) : JsonExportResult :=
  if canExport jsonData sections then
    if jsonData.length = 0 then JsonExportResult.noData "No data to download."
    else JsonExportResult.downloaded jsonData "JSON download started."
  else
    JsonExportResult.blocked "Export Error"
      "Cannot export because no sections are defined. Please add at least one section before exporting."
      "No sections defined."

def csvEscape (value : String) : String :=
  String.mk ('"' :: (value.toList.map (fun c => if c = '"' then ['"', '"'] else [c])).flatten ++ ['"'])

def slugify (s : String) : String :=
  replaceWsRuns "-"
    (trimStr (String.mk ((strLower s).toList.filter
      (fun c => c.isAlphanum || c == '_' || isWs c || c == '-'))))

def reconstructRowFromItem (item : Record) : List (String × String) :=
  let flat := item.data.foldl (fun acc sec => sec.2.foldl (fun a kv => assocSet a kv.1 kv.2) acc) []
  assocSet (assocSet flat "title" item.title) "content" item.content

def jsonEscapeChar (c : Char) : List Char :=
  if c = '"' then ['\\', '"']
  else if c = '\\' then ['\\', '\\']
  else if c = '\n' then ['\\', 'n']
  else if c = '\r' then ['\\', 'r']
  else if c = '\t' then ['\\', 't']
  else [c]

def jsonStr (s : String) : String :=
  String.mk ('"' :: (s.toList.map jsonEscapeChar).flatten ++ ['"'])

def jsonObjStr (fields : List String) : String :=
  "\x7b" ++ joinSep "," fields ++ "\x7d"

def jsonStringifyInner (m : List (String × String)) : String :=
  jsonObjStr (m.map (fun kv => jsonStr kv.1 ++ ":" ++ jsonStr kv.2))

def jsonStringifyData (d : List (String × List (String × String))) : String :=
  jsonObjStr (d.map (fun kv => jsonStr kv.1 ++ ":" ++ jsonStringifyInner kv.2))

def baseHeaders : List String :=
  ["content", "title", "route_url", "published_at", "data",
   "status", "sites", "locale", "taxonomy_terms", "created_at"]

def exportRowFields (item : Record) (titlePattern : String) (detectedHeaders : List String)
    (idx : Nat) (nowPat nowIso : String) : List String :=
  let flatRow := reconstructRowFromItem item
  let routeFromPattern := buildTitleFromPattern titlePattern flatRow detectedHeaders (idx + 1) nowPat
  let routeBase := if 0 < (trimStr routeFromPattern).length then routeFromPattern else item.title
  [ csvEscape item.content,
    csvEscape item.title,
    csvEscape ("/" ++ item.content ++ "/" ++ slugify routeBase),
    csvEscape nowIso,
    csvEscape (jsonStringifyData item.data),
    csvEscape "1",
    csvEscape "",
    csvEscape "en",
    csvEscape "",
    csvEscape nowIso ]

def exportRowsFrom (titlePattern : String) (detectedHeaders : List String)
    (nowPat nowIso : String) : Nat → List Record → List String
  | _, [] => []
  | idx, item :: rest =>
    joinSep "," (exportRowFields item titlePattern detectedHeaders idx nowPat nowIso) ::
      exportRowsFrom titlePattern detectedHeaders nowPat nowIso (idx + 1) rest

def downloadCSVLines (jsonData : List Record) (titlePattern : String)
    (detectedHeaders : List String) (nowPat nowIso : String) : List String :=
  joinSep "," (baseHeaders.map strLower) ::
    exportRowsFrom titlePattern detectedHeaders nowPat nowIso 0 jsonData

instance {ε α : Type} [DecidableEq ε] [DecidableEq α] : DecidableEq (Except ε α) :=
  fun a b =>
    match a, b with
    | Except.ok x, Except.ok y =>
      if h : x = y then Decidable.isTrue (by rw [h]) else Decidable.isFalse (by simp [h])
    | Except.error x, Except.error y =>
      if h : x = y then Decidable.isTrue (by rw [h]) else Decidable.isFalse (by simp [h])
    | Except.ok _, Except.error _ => Decidable.isFalse (by simp)
    | Except.error _, Except.ok _ => Decidable.isFalse (by simp)

theorem head?_in {α : Type} {l : List α} {a : α} (h : l.head? = some a) : a ∈ l := by
  cases l with
  | nil => simp at h
  | cons x xs => simp at h; simp [h]

-- C1 ------------------------------------------------------------------

/-- C1 counterexample: starting from the initial single default section
"main", the one-operation sequence removeSection "main" leaves the
ordered sections list empty, so a remove operation does delete the last
remaining section. -/
theorem removeSection_last_section_empties :
    (removeSection "main" initialSections ([] : ColumnMap)).1 = [] := by decide

/-- C1 amended: removeSection filters out every section whose id equals
the given id with no minimum-count guard; the resulting sections list is
empty exactly when every section in the registry carried the removed id
(in particular, removing the sole remaining section empties the list). -/
theorem removeSection_empties_iff (id : String) (secs : List Sect) (cmap : ColumnMap) :
    (removeSection id secs cmap).1 = [] ↔ ∀ s ∈ secs, s.id = id := by
  show secs.filter (fun s => decide (s.id ≠ id)) = [] ↔ _
  rw [List.filter_eq_nil_iff]
  simp

/-- C1 witness: instantiating the amended statement at a concrete
one-section registry whose only id is the removed one. -/
theorem removeSection_empties_iff_witness :
    (removeSection "a" [{ id := "a", name := "a", removable := true }]
      ([("h", some "a")] : ColumnMap)).1 = [] :=
  (removeSection_empties_iff "a" [{ id := "a", name := "a", removable := true }]
    [("h", some "a")]).mpr (by decide)

-- C4 ------------------------------------------------------------------

/-- C4 counterexample: removing the only section while a column is
assigned to it leaves the assignment entry with no section id at all
(the JavaScript undefined), while the sections list is empty, so the
entry does not point at the id of any first section and every id is
absent from the (empty) sections list. -/
theorem removeSection_dangling_counterexample :
    (removeSection "main" initialSections [("name", some "main")]).1 = [] ∧
    (removeSection "main" initialSections [("name", some "main")]).2 =
      [("name", (none : Option String))] := by decide

/-- C4 amended: provided a section other than the removed one remains
(the new list has a head) and every column-map entry referred to an
existing section, removeSection rewrites exactly the entries that
pointed at the removed id to the new first section id, leaves all other
entries unchanged, and afterwards no entry refers to a section id absent
from the sections list. -/
theorem removeSection_reassigns_to_fallback (id : String) (secs : List Sect)
    (cmap : ColumnMap) (f : Sect)
    (hf : (removeSection id secs cmap).1.head? = some f)
    (hvalid : ∀ kv ∈ cmap, kv.2 = none ∨ ∃ s ∈ secs, some s.id = kv.2) :
    (removeSection id secs cmap).2 =
      cmap.map (fun kv => if kv.2 = some id then (kv.1, some f.id) else kv) ∧
    ∀ kv ∈ (removeSection id secs cmap).2,
      kv.2 = none ∨ ∃ s ∈ (removeSection id secs cmap).1, some s.id = kv.2 := by
  have hnext : (removeSection id secs cmap).1 = secs.filter (fun s => decide (s.id ≠ id)) := rfl
  have hfb :
      ((secs.filter (fun s => decide (s.id ≠ id))).head?).map Sect.id = some f.id := by
    rw [hnext] at hf; rw [hf]; rfl
  have hmap : (removeSection id secs cmap).2 =
      cmap.map (fun kv => if kv.2 = some id then (kv.1, some f.id) else kv) := by
    show cmap.map _ = _
    rw [hfb]
  refine ⟨hmap, ?_⟩
  intro kv hkv
  rw [hmap] at hkv
  obtain ⟨kv0, hkv0, hkveq⟩ := List.mem_map.mp hkv
  by_cases hcase : kv0.2 = some id
  · rw [if_pos hcase] at hkveq
    subst hkveq
    refine Or.inr ⟨f, ?_, rfl⟩
    rw [hnext]
    exact head?_in (hnext ▸ hf)
  · rw [if_neg hcase] at hkveq
    subst hkveq
    rcases hvalid kv0 hkv0 with hnone | ⟨s, hs, hsid⟩
    · exact Or.inl hnone
    · refine Or.inr ⟨s, ?_, hsid⟩
      rw [hnext, List.mem_filter]
      refine ⟨hs, ?_⟩
      simp only [decide_eq_true_eq]
      intro hcontra
      apply hcase
      rw [← hsid, hcontra]

/-- C4 witness: instantiating the amended statement at a two-section
registry where a column assigned to the removed section is rewritten to
the surviving first section. -/
theorem removeSection_reassigns_to_fallback_witness :
    (removeSection "extra"
      [{ id := "main", name := "main", removable := true },
       { id := "extra", name := "extra", removable := true }]
      [("name", some "extra"), ("age", some "main")]).2 =
      [("name", some "extra"), ("age", some "main")].map
        (fun kv => if kv.2 = some "extra" then (kv.1, some "main") else kv) ∧
    ∀ kv ∈ (removeSection "extra"
      [{ id := "main", name := "main", removable := true },
       { id := "extra", name := "extra", removable := true }]
      [("name", some "extra"), ("age", some "main")]).2,
      kv.2 = none ∨ ∃ s ∈ (removeSection "extra"
        [{ id := "main", name := "main", removable := true },
         { id := "extra", name := "extra", removable := true }]
        [("name", some "extra"), ("age", some "main")]).1, some s.id = kv.2 :=
  removeSection_reassigns_to_fallback "extra"
    [{ id := "main", name := "main", removable := true },
     { id := "extra", name := "extra", removable := true }]
    [("name", some "extra"), ("age", some "main")]
    { id := "main", name := "main", removable := true }
    (by decide) (by decide)

-- C5 ------------------------------------------------------------------

/-- C5 counterexample: with a non-empty record set but an empty sections
list, downloadJSON reports the blocking export modal and produces no
file, so emptiness of the record set is not the only state that makes
the JSON export fail. -/
theorem downloadJSON_nonempty_records_blocked :
    downloadJSON [{ title := "t", content := "c", data := [] }] [] =
      JsonExportResult.blocked "Export Error"
        "Cannot export because no sections are defined. Please add at least one section before exporting."
        "No sections defined." := rfl

/-- C5 amended: downloadJSON serializes the full record array and starts
the download exactly when the record set is non-empty and the sections
list is non-empty; otherwise it reports an error (modal plus status)
and produces no file. -/
theorem downloadJSON_succeeds_iff (d : List Record) (s : List Sect) :
    downloadJSON d s = JsonExportResult.downloaded d "JSON download started." ↔
      d ≠ [] ∧ s ≠ [] := by
  cases d with
  | nil => simp [downloadJSON, canExport]
  | cons r rs =>
    cases s with
    | nil => simp [downloadJSON, canExport]
    | cons x xs => simp [downloadJSON, canExport]

/-- C5 witness: instantiating the amended statement at a one-record,
one-section state where the export succeeds. -/
theorem downloadJSON_succeeds_iff_witness :
    downloadJSON [{ title := "t", content := "c", data := [] }] initialSections =
      JsonExportResult.downloaded [{ title := "t", content := "c", data := [] }]
        "JSON download started." :=
  (downloadJSON_succeeds_iff [{ title := "t", content := "c", data := [] }]
    initialSections).mpr (by decide)

-- C8 ------------------------------------------------------------------

/-- C8: on the file "name,age\nAlice,30\nBob,25" with the default single
section and title pattern {column:name}-{index}, Convert produces
exactly the two titles "Alice-1" and "Bob-2": the column token resolves
to the row's field for the case-insensitively matched header and the
index token resolves to the 1-based row index. -/
theorem processCSV_column_index_pattern_scenario :
    titlesOf (processCSV "name,age\nAlice,30\nBob,25" initialSections []
      "{column:name}-{index}" "") = ["Alice-1", "Bob-2"] := by decide

-- C2 counterexample ---------------------------------------------------

/-- C2 counterexample: in the input a""b,c the doubled quote occurs
outside any open quoted field, yet parseCSVLine emits a literal quote
(fields a"b and c) instead of treating the two quotes as state toggles
(which would give fields ab and c as the claim predicts). -/
theorem parseCSVLine_doubled_quote_outside_counterexample :
    parseCSVLine "a\"\"b,c" = ["a\"b", "c"] ∧
    parseCSVLine "a\"\"b,c" ≠ ["ab", "c"] := by decide

-- C3 counterexample ---------------------------------------------------

/-- C3 counterexample: on the file name\na\na\na-1 with pattern
{column:name}, the suffix produced for the second duplicate of base
title a collides with the distinct base title a-1, so one Convert pass
produces two records with the equal title a-1. -/
theorem processCSV_duplicate_final_titles :
    titlesOf (processCSV "name\na\na\na-1" initialSections [] "{column:name}" "") =
      ["a", "a-1", "a-1"] ∧
    ¬ (titlesOf (processCSV "name\na\na\na-1" initialSections [] "{column:name}" "")).Nodup := by
  decide

-- C6 counterexample ---------------------------------------------------

/-- C6 counterexample: the first emitted line of the CSV export is the
fixed header row joined without any quoting, so its fields do not begin
with a double quote as the claim requires of every emitted line. -/
theorem downloadCSV_header_row_unquoted :
    (downloadCSVLines [{ title := "t", content := "c", data := [] }] "{title}" [] "" "").head? =
      some "content,title,route_url,published_at,data,status,sites,locale,taxonomy_terms,created_at" ∧
    "content,title,route_url,published_at,data,status,sites,locale,taxonomy_terms,created_at".toList.head? ≠
      some '"' := by decide

-- C2 amended -----------------------------------------------------------

theorem parseCSVLineAux_other (c : Char) (rest cur : List Char) (q : Bool)
    (hc : c ≠ '"') (hc2 : c ≠ ',') :
    parseCSVLineAux (c :: rest) cur q = parseCSVLineAux rest (cur ++ [c]) q := by
  rw [parseCSVLineAux.eq_def]
  split
  · rename_i heq
    exact (List.cons_ne_nil c rest heq).elim
  · rename_i heq
    injection heq with h1 h2
    exact absurd h1 hc
  · rename_i heq
    injection heq with h1 h2
    exact absurd h1 hc
  · rename_i heq
    injection heq with h1 h2
    subst h1
    subst h2
    rw [if_neg (fun hand => hc2 hand.1)]

theorem parseCSVLineAux_doubled (rest cur : List Char) (q : Bool) :
    parseCSVLineAux ('"' :: '"' :: rest) cur q = parseCSVLineAux rest (cur ++ ['"']) q := rfl

theorem parseCSVLineAux_skips_plain :
    ∀ (cs : List Char), (∀ c ∈ cs, c ≠ '"' ∧ c ≠ ',') →
      ∀ (rest cur : List Char) (q : Bool),
        parseCSVLineAux (cs ++ rest) cur q = parseCSVLineAux rest (cur ++ cs) q := by
  intro cs
  induction cs with
  | nil => intro _ rest cur q; simp
  | cons c cs ih =>
    intro h rest cur q
    have hc := h c (List.mem_cons_self c cs)
    rw [List.cons_append, parseCSVLineAux_other c (cs ++ rest) cur q hc.1 hc.2,
        ih (fun x hx => h x (List.mem_cons_of_mem c hx)) rest (cur ++ [c]) q]
    simp

theorem parseCSVLineAux_plain_end (cs : List Char) (h : ∀ c ∈ cs, c ≠ '"' ∧ c ≠ ',')
    (cur : List Char) (q : Bool) : parseCSVLineAux cs cur q = [cur ++ cs] := by
  have h2 := parseCSVLineAux_skips_plain cs h [] cur q
  rw [List.append_nil] at h2
  rw [h2]
  rfl

/-- C2 amended: a double quote immediately followed by another double
quote always emits one literal double quote and consumes both
characters, regardless of the quote state; in particular on a line
whose other characters are plain (no quotes, no commas) the doubled
quote occurs outside any open quoted field and still produces a literal
quote in the single emitted field, rather than toggling the state
twice. -/
theorem parseCSVLine_doubled_quote_always_literal (pre post : List Char)
    (hpre : ∀ c ∈ pre, c ≠ '"' ∧ c ≠ ',') (hpost : ∀ c ∈ post, c ≠ '"' ∧ c ≠ ',') :
    parseCSVLine (String.mk (pre ++ '"' :: '"' :: post)) =
      [trimStr (String.mk (pre ++ '"' :: post))] := by
  show (parseCSVLineAux (pre ++ '"' :: '"' :: post) [] false).map
      (fun cs => trimStr (String.mk cs)) = _
  rw [parseCSVLineAux_skips_plain pre hpre ('"' :: '"' :: post) [] false,
      parseCSVLineAux_doubled post ([] ++ pre) false,
      parseCSVLineAux_plain_end post hpost (([] ++ pre) ++ ['"']) false]
  simp

/-- C2 witness: instantiating the amended statement on the line with
characters a, doubled quote, b: the parser emits the single field with
a literal quote between a and b. -/
theorem parseCSVLine_doubled_quote_always_literal_witness :
    parseCSVLine (String.mk (['a'] ++ '"' :: '"' :: ['b'])) =
      [trimStr (String.mk (['a'] ++ '"' :: ['b']))] :=
  parseCSVLine_doubled_quote_always_literal ['a'] ['b'] (by decide) (by decide)

-- C7 ------------------------------------------------------------------

theorem processRows_length (headers : List String) (sections : List Sect)
    (columnMap : ColumnMap) (defaultSectionId titlePattern now : String) :
    ∀ (rows : List String) (i : Nat) (tc : List (String × Nat)) (recs : List Record),
      processRows headers sections columnMap defaultSectionId titlePattern now i tc rows =
        Except.ok recs → recs.length = rows.length := by
  intro rows
  induction rows with
  | nil =>
    intro i tc recs h
    simp only [processRows] at h
    cases h
    rfl
  | cons line rest ih =>
    intro i tc recs h
    simp only [processRows] at h
    split at h
    · exact Except.noConfusion h
    · split at h
      · exact Except.noConfusion h
      · rename_i recs0 heq
        cases h
        simp only [List.length_cons]
        rw [ih _ _ _ heq]

/-- C7: whenever Convert accepts a file (processCSV returns a record
set), the number of produced records is one less than the number of
non-blank lines of the CRLF-normalized file: blank or whitespace-only
lines are filtered out before processing and the first remaining line
is consumed as the header. -/
theorem processCSV_record_count (text : String) (secs : List Sect) (cmap : ColumnMap)
    (pat now : String) (recs : List Record)
    (h : processCSV text secs cmap pat now = Except.ok recs) :
    recs.length + 1 = (nonBlankLines text).length := by
  unfold processCSV at h
  split at h
  · exact Except.noConfusion h
  · rename_i firstLine restLines heq
    rw [heq, List.length_cons, processRows_length _ _ _ _ _ _ _ _ _ _ h]

/-- C7 witness: a two-line file (header plus one data row) yields one
record, one less than its two non-blank lines. -/
theorem processCSV_record_count_witness :
    ([{ title := "foo", content := "", data := [("main", [])] }] : List Record).length + 1 =
      (nonBlankLines "title\nfoo").length :=
  processCSV_record_count "title\nfoo" initialSections [] "{title}" ""
    [{ title := "foo", content := "", data := [("main", [])] }] (by decide)

-- C9 ------------------------------------------------------------------

theorem resolveToken_now_eq (n1 n2 : String) (token : String)
    (h : trimStr token ≠ "timestamp") (row : List (String × String))
    (hs : List String) (i : Nat) :
    resolveToken token row hs i n1 = resolveToken token row hs i n2 := by
  simp only [resolveToken]
  split_ifs <;> simp_all

theorem substTokens_now_eq (n1 n2 : String) (row : List (String × String))
    (hs : List String) (i : Nat) :
    ∀ (tks : List String), (∀ raw ∈ tks, trimStr (tokenBody raw) ≠ "timestamp") →
      ∀ acc, substTokens row hs i n1 tks acc = substTokens row hs i n2 tks acc := by
  intro tks
  induction tks with
  | nil => intro _ acc; rfl
  | cons raw rest ih =>
    intro h acc
    simp only [substTokens]
    rw [resolveToken_now_eq n1 n2 (tokenBody raw) (h raw (List.mem_cons_self raw rest)) row hs i]
    exact ih (fun r hr => h r (List.mem_cons_of_mem raw hr)) _

theorem buildTitleFromPattern_now_eq (pattern n1 n2 : String)
    (h : ∀ raw ∈ findTokens pattern.toList, trimStr (tokenBody raw) ≠ "timestamp") :
    ∀ (row : List (String × String)) (hs : List String) (i : Nat),
      buildTitleFromPattern pattern row hs i n1 = buildTitleFromPattern pattern row hs i n2 := by
  intro row hs i
  simp only [buildTitleFromPattern]
  split_ifs with h1
  · rfl
  · split
    · rfl
    · rename_i raw rest heq
      exact substTokens_now_eq n1 n2 row hs i (raw :: rest) (heq ▸ h) pattern

theorem processRows_now_eq (headers : List String) (sections : List Sect)
    (columnMap : ColumnMap) (defaultSectionId titlePattern : String) (n1 n2 : String)
    (h : ∀ raw ∈ findTokens titlePattern.toList, trimStr (tokenBody raw) ≠ "timestamp") :
    ∀ (rows : List String) (i : Nat) (tc : List (String × Nat)),
      processRows headers sections columnMap defaultSectionId titlePattern n1 i tc rows =
        processRows headers sections columnMap defaultSectionId titlePattern n2 i tc rows := by
  intro rows
  induction rows with
  | nil => intro i tc; rfl
  | cons line rest ih =>
    intro i tc
    simp only [processRows]
    simp only [buildTitleFromPattern_now_eq titlePattern n1 n2 h, ih]

/-- C9: the record set produced by Convert is a deterministic function
of the file text, the sections list, the column map and the title
pattern: as long as no token of the pattern trims to timestamp, the
clock value passed for timestamp resolution does not influence the
result, so re-running processCSV with unchanged inputs produces a
structurally identical record set. -/
theorem processCSV_clock_independent (text : String) (secs : List Sect) (cmap : ColumnMap)
    (pat n1 n2 : String)
    (h : ∀ raw ∈ findTokens pat.toList, trimStr (tokenBody raw) ≠ "timestamp") :
    processCSV text secs cmap pat n1 = processCSV text secs cmap pat n2 := by
  unfold processCSV
  split
  · rfl
  · exact processRows_now_eq _ secs cmap _ pat n1 n2 h _ 1 []

/-- C9 witness: with the default pattern (no timestamp token) the same
file converts identically under two different clock values. -/
theorem processCSV_clock_independent_witness :
    processCSV "name\nx" initialSections [] "{title}" "AAAA" =
      processCSV "name\nx" initialSections [] "{title}" "BBBB" :=
  processCSV_clock_independent "name\nx" initialSections [] "{title}" "AAAA" "BBBB" (by decide)

-- C10 -----------------------------------------------------------------

theorem buildSectionsDataAux_error (sections : List Sect) (columnMap : ColumnMap)
    (defaultSectionId : String) (row : List (String × String)) :
    ∀ (headers : List String) (acc : List (String × List (String × String))) (e : String),
      buildSectionsDataAux sections columnMap defaultSectionId row headers acc =
        Except.error e → e = "Error processing CSV file." := by
  intro headers
  induction headers with
  | nil =>
    intro acc e h
    simp only [buildSectionsDataAux] at h
    exact Except.noConfusion h
  | cons hd rest ih =>
    intro acc e h
    simp only [buildSectionsDataAux] at h
    split at h
    · exact ih _ _ h
    · split at h
      · cases h; rfl
      · exact ih _ _ h

theorem processRows_error (headers : List String) (sections : List Sect)
    (columnMap : ColumnMap) (defaultSectionId titlePattern now : String) :
    ∀ (rows : List String) (i : Nat) (tc : List (String × Nat)) (e : String),
      processRows headers sections columnMap defaultSectionId titlePattern now i tc rows =
        Except.error e → e = "Error processing CSV file." := by
  intro rows
  induction rows with
  | nil =>
    intro i tc e h
    simp only [processRows] at h
    exact Except.noConfusion h
  | cons line rest ih =>
    intro i tc e h
    simp only [processRows] at h
    split at h
    · rename_i e0 heq
      cases h
      exact buildSectionsDataAux_error _ _ _ _ _ _ _ heq
    · split at h
      · rename_i e0 heq
        cases h
        exact ih _ _ _ heq
      · exact Except.noConfusion h

/-- C10: a file whose CRLF-normalized content has exactly one non-blank
line (the header row alone) is converted successfully: the record set
is replaced by the empty array and the status reads Converted 0 rows.;
the error CSV file is empty or malformed. is produced exactly when the
file has zero non-blank lines. -/
theorem processCSV_header_only_succeeds (text : String) (secs : List Sect)
    (cmap : ColumnMap) (pat now : String) :
    ((nonBlankLines text).length = 1 →
      processCSV text secs cmap pat now = Except.ok [] ∧
      convertStatusMessage text secs cmap pat now = "Converted 0 rows.") ∧
    (processCSV text secs cmap pat now = Except.error "CSV file is empty or malformed." ↔
      nonBlankLines text = []) := by
  constructor
  · intro hlen
    obtain ⟨l, hl⟩ : ∃ l, nonBlankLines text = [l] := by
      cases hnb : nonBlankLines text with
      | nil => rw [hnb] at hlen; simp at hlen
      | cons a t =>
        cases t with
        | nil => exact ⟨a, rfl⟩
        | cons b t2 =>
          rw [hnb] at hlen
          simp only [List.length_cons] at hlen
          omega
    have hp : processCSV text secs cmap pat now = Except.ok [] := by
      unfold processCSV
      rw [hl]
      rfl
    refine ⟨hp, ?_⟩
    unfold convertStatusMessage
    rw [hp]
    decide
  · constructor
    · intro h
      cases hnb : nonBlankLines text with
      | nil => rfl
      | cons f r =>
        unfold processCSV at h
        rw [hnb] at h
        have h2 := processRows_error _ secs cmap _ pat now r 1 [] _ h
        exact absurd h2 (by decide)
    · intro h
      unfold processCSV
      rw [h]

/-- C10 witness: the one-line file hello converts to the empty record
set with the success status Converted 0 rows. -/
theorem processCSV_header_only_succeeds_witness :
    processCSV "hello" initialSections [] "{title}" "" = Except.ok [] ∧
    convertStatusMessage "hello" initialSections [] "{title}" "" = "Converted 0 rows." :=
  (processCSV_header_only_succeeds "hello" initialSections [] "{title}" "").1 (by decide)

-- C6 amended -----------------------------------------------------------

theorem csvEscape_quoted (v : String) :
    (csvEscape v).toList.head? = some '"' ∧ (csvEscape v).toList.getLast? = some '"' := by
  constructor
  · rfl
  · show ('"' :: ((v.toList.map (fun c => if c = '"' then ['"', '"'] else [c])).flatten ++ ['"'])).getLast? =
      some '"'
    rw [← List.cons_append]
    exact List.getLast?_concat _

/-- C6 amended: every field of every data row of the CSV export is
produced by csvEscape and therefore begins and ends with a double quote
regardless of content; the fixed header row, however, is emitted
unquoted (see the counterexample), so the all-fields-quoted guarantee
holds for the record rows only. -/
theorem exportRowFields_fields_quoted (item : Record) (pattern : String)
    (hdrs : List String) (idx : Nat) (nowPat nowIso : String) (f : String)
    (hf : f ∈ exportRowFields item pattern hdrs idx nowPat nowIso) :
    f.toList.head? = some '"' ∧ f.toList.getLast? = some '"' := by
  simp only [exportRowFields, List.mem_cons, List.not_mem_nil, or_false] at hf
  rcases hf with rfl | rfl | rfl | rfl | rfl | rfl | rfl | rfl | rfl | rfl <;>
    exact csvEscape_quoted _

/-- C6 witness: the status field of a concrete export row begins and
ends with a double quote. -/
theorem exportRowFields_fields_quoted_witness :
    (csvEscape "1").toList.head? = some '"' ∧ (csvEscape "1").toList.getLast? = some '"' :=
  exportRowFields_fields_quoted { title := "t", content := "c", data := [] } "{title}" [] 0 "" ""
    (csvEscape "1") (by decide)

-- C3 amended -----------------------------------------------------------

theorem alookup_map_set {α : Type} (k : String) (v : α) (s : String) :
    ∀ m : List (String × α),
      alookup (m.map (fun kv => if kv.1 = k then (k, v) else kv)) s =
        if s = k then (alookup m k).map (fun _ => v) else alookup m s := by
  intro m
  induction m with
  | nil => by_cases h : s = k <;> simp [alookup, h]
  | cons kv rest ih =>
    simp only [List.map_cons, alookup]
    by_cases h1 : kv.1 = k <;> by_cases h2 : s = k <;> by_cases h3 : kv.1 = s <;>
      simp_all [alookup, ih]

theorem alookup_append_single {α : Type} (k : String) (v : α) (s : String) :
    ∀ m : List (String × α),
      alookup (m ++ [(k, v)]) s =
        match alookup m s with
        | some x => some x
        | none => if k = s then some v else none := by
  intro m
  induction m with
  | nil => simp [alookup]
  | cons kv rest ih =>
    by_cases h : kv.1 = s <;> simp [alookup, h, ih]

theorem alookup_assocSet {α : Type} (m : List (String × α)) (k : String) (v : α) (s : String) :
    alookup (assocSet m k v) s = if s = k then some v else alookup m s := by
  simp only [assocSet]
  cases hk : alookup m k with
  | some x =>
    simp only [hk, Option.isSome_some, if_true]
    rw [alookup_map_set]
    by_cases h2 : s = k <;> simp [h2, hk]
  | none =>
    simp only [hk, Option.isSome_none, Bool.false_eq_true, if_false]
    rw [alookup_append_single]
    by_cases h2 : s = k
    · subst h2; simp [hk]
    · have h2s : ¬ k = s := fun hh => h2 hh.symm
      cases hs : alookup m s <;> simp [hs, h2, h2s]

theorem suffix_ite_congr (b : String) (k1 k2 : Nat) (h : k1 = k2) :
    (if k1 = 1 then b else b ++ "-" ++ Nat.repr (k1 - 1)) =
    (if k2 = 1 then b else b ++ "-" ++ Nat.repr (k2 - 1)) := by rw [h]

theorem dedupTitles_getD :
    ∀ (bases : List String) (counts : List (String × Nat)) (seen : List String),
      (∀ s, (alookup counts s).getD 0 = seen.count s) →
      ∀ j, j < bases.length →
        (dedupTitles counts bases).getD j "" = genRule seen bases j := by
  intro bases
  induction bases with
  | nil => intro counts seen hinv j hj; simp at hj
  | cons b rest ih =>
    intro counts seen hinv j hj
    cases j with
    | zero =>
      simp only [dedupTitles, dedupStep, List.getD_cons_zero, genRule, List.take_succ_cons,
                 List.take_zero]
      rw [hinv b]
      have hcb : List.count b [b] = 1 := by simp
      rw [hcb]
      by_cases h0 : seen.count b = 0
      · simp [h0]
      · rw [if_pos (by omega), if_neg (by omega)]
    | succ j =>
      simp only [dedupTitles, List.getD_cons_succ]
      have hinv2 : ∀ s, (alookup (dedupStep counts b).2 s).getD 0 = (b :: seen).count s := by
        intro s
        simp only [dedupStep]
        rw [alookup_assocSet]
        by_cases hsb : s = b
        · subst hsb
          simp [List.count_cons, hinv s]
        · simp [hsb, hinv s, List.count_cons, Ne.symm hsb]
      have hjr : j < rest.length := by
        simp only [List.length_cons] at hj
        omega
      rw [ih (dedupStep counts b).2 (b :: seen) hinv2 j hjr]
      simp only [genRule, List.getD_cons_succ, List.take_succ_cons]
      apply suffix_ite_congr
      simp only [List.count_cons]
      omega

theorem dedupTitles_length : ∀ (bases : List String) (counts : List (String × Nat)),
    (dedupTitles counts bases).length = bases.length := by
  intro bases
  induction bases with
  | nil => intro counts; rfl
  | cons b rest ih => intro counts; simp [dedupTitles, ih]

theorem baseTitlesFrom_length (headers : List String) (pat now : String) :
    ∀ (rows : List String) (i : Nat),
      (baseTitlesFrom headers pat now i rows).length = rows.length := by
  intro rows
  induction rows with
  | nil => intro i; rfl
  | cons line rest ih => intro i; simp [baseTitlesFrom, ih]

theorem processRows_titles (headers : List String) (sections : List Sect)
    (columnMap : ColumnMap) (defaultSectionId titlePattern now : String) :
    ∀ (rows : List String) (i : Nat) (tc : List (String × Nat)) (recs : List Record),
      processRows headers sections columnMap defaultSectionId titlePattern now i tc rows =
        Except.ok recs →
      recs.map Record.title = dedupTitles tc (baseTitlesFrom headers titlePattern now i rows) := by
  intro rows
  induction rows with
  | nil => intro i tc recs h; simp only [processRows] at h; cases h; rfl
  | cons line rest ih =>
    intro i tc recs h
    simp only [processRows] at h
    split at h
    · exact Except.noConfusion h
    · split at h
      · exact Except.noConfusion h
      · rename_i recs0 heq
        cases h
        simp only [List.map_cons, baseTitlesFrom, dedupTitles]
        rw [ih _ _ _ heq]

/-- C3 amended: the title of the j-th record of a Convert pass follows
the per-base-title numbering rule exactly as specified (the k-th
occurrence of a base title, in source order, is left unmodified when
k = 1 and receives the suffix -(k-1) otherwise); global uniqueness of
the resulting titles, however, does not follow, because a suffixed
title can collide with a different base title (see the
counterexample). -/
theorem processCSV_title_suffix_rule (text : String) (secs : List Sect) (cmap : ColumnMap)
    (pat now : String) (recs : List Record)
    (h : processCSV text secs cmap pat now = Except.ok recs) (j : Nat) (hj : j < recs.length) :
    (recs.map Record.title).getD j "" = dedupRule (convertBaseTitles text pat now) j := by
  unfold processCSV at h
  split at h
  · exact Except.noConfusion h
  · rename_i firstLine restLines heq
    have htitles := processRows_titles _ secs cmap _ pat now restLines 1 [] recs h
    have hlen := processRows_length _ secs cmap _ pat now restLines 1 [] recs h
    have hbases : convertBaseTitles text pat now =
        baseTitlesFrom (headerNames firstLine) pat now 1 restLines := by
      unfold convertBaseTitles
      rw [heq]
    rw [htitles, hbases]
    exact dedupTitles_getD _ [] [] (fun s => by simp [alookup]) j
      (by rw [baseTitlesFrom_length]; omega)

/-- C3 witness: on the counterexample file the third record's title a-1
agrees with the rule (it is the first occurrence of the base title a-1,
left unmodified, even though it collides with the suffixed second
record). -/
theorem processCSV_title_suffix_rule_witness :
    (([{ title := "a", content := "", data := [("main", [("name", "a")])] },
       { title := "a-1", content := "", data := [("main", [("name", "a")])] },
       { title := "a-1", content := "", data := [("main", [("name", "a-1")])] }] : List Record).map
        Record.title).getD 2 "" =
      dedupRule (convertBaseTitles "name\na\na\na-1" "{column:name}" "") 2 :=
  processCSV_title_suffix_rule "name\na\na\na-1" initialSections [] "{column:name}" ""
    [{ title := "a", content := "", data := [("main", [("name", "a")])] },
     { title := "a-1", content := "", data := [("main", [("name", "a")])] },
     { title := "a-1", content := "", data := [("main", [("name", "a-1")])] }]
    (by decide) 2 (by decide)

end HaspCSV
